import Mathlib

/-!
Verification of the cross-venue spot/perpetual arbitrage engine.

Shallow embedding of the Go sources.  Prices, quantities and balances are
IEEE-754 doubles in the source; they are modelled here as exact rationals
(`ℚ`), so that the epsilon-comparison discipline of `clients/common`
(`Epsilon = 1e-9`) becomes exact rational arithmetic.  Go maps keyed by
strings or floats are modelled as association lists; mutexes, logging and
wall-clock reads are dropped (time enters as an explicit `now` parameter).
-/

namespace ArbSpec

namespace common

/-- Epsilon for floating point comparisons (`const Epsilon = 1e-9`). -/
def Epsilon : ℚ := 1 / 1000000000

/-- `IsZero` checks if a float is approximately zero (`math.Abs(f) < Epsilon`). -/
def IsZero (f : ℚ) : Bool := decide (|f| < Epsilon)

/-- `IsNegativeOrZero` checks if a float is `<= 0` with epsilon (`f < Epsilon`). -/
def IsNegativeOrZero (f : ℚ) : Bool := decide (f < Epsilon)

/-- `Equal` checks if two floats are approximately equal (`math.Abs(a-b) < Epsilon`). -/
def Equal (a b : ℚ) : Bool := decide (|a - b| < Epsilon)

/-- `GreaterThan` checks if `a > b` with epsilon (`a-b > Epsilon`). -/
def GreaterThan (a b : ℚ) : Bool := decide (a - b > Epsilon)

/-- `LessThan` checks if `a < b` with epsilon (`b-a > Epsilon`). -/
def LessThan (a b : ℚ) : Bool := decide (b - a > Epsilon)

/-- `GreaterThanOrEqual` checks if `a >= b` with epsilon (`a-b > -Epsilon`). -/
def GreaterThanOrEqual (a b : ℚ) : Bool := decide (a - b > -Epsilon)

/-- `LessThanOrEqual` checks if `a <= b` with epsilon (`b-a > -Epsilon`). -/
def LessThanOrEqual (a b : ℚ) : Bool := decide (b - a > -Epsilon)

/-- Per-pair decimal-place precision record (`clients/common/precision.go`). -/
structure PairPrecision where
  QuantityPrecision : ℕ
  PricePrecision : ℕ
deriving DecidableEq, Repr

/-- The compiled-in precision table of `clients/common/precision.go`. -/
def PairPrecisions : List (String × PairPrecision) :=
  [ ("btc-usdt", ⟨5, 2⟩), ("eth-usdt", ⟨4, 2⟩), ("sol-usdt", ⟨2, 3⟩),
    ("doge-usdt", ⟨0, 6⟩), ("xrp-usdt", ⟨1, 4⟩), ("ton-usdt", ⟨2, 4⟩),
    ("ada-usdt", ⟨2, 5⟩), ("link-usdt", ⟨2, 3⟩), ("arb-usdt", ⟨1, 4⟩),
    ("op-usdt", ⟨2, 4⟩), ("ltc-usdt", ⟨3, 2⟩), ("bch-usdt", ⟨3, 2⟩),
    ("uni-usdt", ⟨2, 3⟩), ("avax-usdt", ⟨2, 3⟩), ("apt-usdt", ⟨2, 3⟩),
    ("near-usdt", ⟨1, 4⟩), ("matic-usdt", ⟨0, 5⟩), ("pepe-usdt", ⟨0, 8⟩),
    ("floki-usdt", ⟨0, 7⟩), ("sui-usdt", ⟨1, 4⟩), ("icp-usdt", ⟨2, 3⟩),
    ("xvs-usdt", ⟨2, 3⟩), ("ach-usdt", ⟨0, 6⟩), ("fet-usdt", ⟨1, 4⟩),
    ("rndr-usdt", ⟨2, 4⟩), ("enj-usdt", ⟨1, 5⟩), ("cfx-usdt", ⟨0, 5⟩),
    ("kas-usdt", ⟨0, 6⟩), ("mina-usdt", ⟨1, 5⟩), ("gala-usdt", ⟨0, 6⟩),
    ("blur-usdt", ⟨1, 5⟩), ("wojak-usdt", ⟨0, 7⟩), ("bnb-usdt", ⟨3, 2⟩) ]

/-- `GetPrecision`: table lookup, defaulting to `{8, 8}` for unknown pairs. -/
def GetPrecision (pairName : String) : PairPrecision :=
  match PairPrecisions.lookup pairName with
  | some prec => prec
  | none => ⟨8, 8⟩

/-- `RoundQuantity`: `math.Floor(qty*multiplier)/multiplier` with
`multiplier = 10^QuantityPrecision`. -/
def RoundQuantity (qty : ℚ) (pairName : String) : ℚ :=
  let prec := GetPrecision pairName
  let multiplier : ℚ := 10 ^ prec.QuantityPrecision
  (⌊qty * multiplier⌋ : ℤ) / multiplier

/-- Modelled from the spec: `CalculateMinAchievableVolume` is called by the
detector (`analyzeSignal`) but its definition is absent from the sources;
§4.3 defines the minimum achievable volume as
`10^(−quantity_precision) × price`. -/
def CalculateMinAchievableVolume (price : ℚ) (pairName : String) : ℚ :=
  price / 10 ^ (GetPrecision pairName).QuantityPrecision

/-- Modelled from the spec: `CanAchieveVolume` is called by the detector
(`analyzeSignal`) but its definition is absent from the sources; §4.3
requires a side to be able to express `volume / price` at the pair's
quantity precision, i.e. the volume must reach the minimum achievable
volume for that price. -/
def CanAchieveVolume (volume price : ℚ) (pairName : String) : Bool :=
  GreaterThanOrEqual volume (CalculateMinAchievableVolume price pairName)

/-- Asset → available amount (innermost map of the balance store). -/
abbrev AssetBalances := List (String × ℚ)

/-- Market → asset balances. -/
abbrev MarketBalances := List (String × AssetBalances)

/-- Exchange → market balances (`var Balances = ExchangeBalances{}`). -/
abbrev ExchangeBalances := List (String × MarketBalances)

/-- Replace the first binding of `k`, or append one (Go map assignment). -/
def setAssoc {α : Type} (l : List (String × α)) (k : String) (v : α) :
    List (String × α) :=
  match l with
  | [] => [(k, v)]
  | (k', v') :: rest =>
    if k' = k then (k, v) :: rest else (k', v') :: setAssoc rest k v

/-- `SetBalance`: ensure the nested maps exist, then write the value. -/
def SetBalance (s : ExchangeBalances) (exchange market asset : String)
    (value : ℚ) : ExchangeBalances :=
  let mk := (s.lookup exchange).getD []
  let as := (mk.lookup market).getD []
  setAssoc s exchange (setAssoc mk market (setAssoc as asset value))

/-- `GetBalance`: nested lookups, returning `0.00` at any missing key. -/
def GetBalance (s : ExchangeBalances) (exchange market asset : String) : ℚ :=
  match s.lookup exchange with
  | none => 0
  | some mk =>
    match mk.lookup market with
    | none => 0
    | some as =>
      match as.lookup asset with
      | none => 0
      | some val => val

/-- One recorded `SetBalance` call: (exchange, market, asset, value). -/
abbrev BalanceOp := String × String × String × ℚ

/-- Apply a sequence of `SetBalance` calls to a store. -/
def applyBalanceOps (s : ExchangeBalances) (ops : List BalanceOp) :
    ExchangeBalances :=
  ops.foldl (fun st op => SetBalance st op.1 op.2.1 op.2.2.1 op.2.2.2) s

/-- The value of the most recent `SetBalance` call for a triple, if any. -/
def lastWritten (ops : List BalanceOp) (exchange market asset : String) :
    Option ℚ :=
  ops.foldl
    (fun acc op =>
      if op.1 = exchange ∧ op.2.1 = market ∧ op.2.2.1 = asset
      then some op.2.2.2 else acc)
    none

end common

namespace orderbook

/-- An order-book side: price → quote-asset liquidity (Go `map[float64]float64`,
modelled as an association list). -/
abbrev Side := List (ℚ × ℚ)

/-- `OrderBook` (`orderbook/types.go`); the mutex is dropped. -/
structure OrderBook where
  Bids : Side
  Asks : Side
  Latency : ℚ
  LastUpdateTs : ℤ
deriving DecidableEq, Repr

/-- `NewOrderBook`: an empty book. -/
def NewOrderBook : OrderBook := { Bids := [], Asks := [], Latency := 0, LastUpdateTs := 0 }

/-- Replace the binding of a price level, or append it. -/
def setLevel (l : Side) (p q : ℚ) : Side :=
  match l with
  | [] => [(p, q)]
  | (p', q') :: rest =>
    if p' = p then (p, q) :: rest else (p', q') :: setLevel rest p q

/-- Delete a price level. -/
def eraseLevel (l : Side) (p : ℚ) : Side :=
  l.filter (fun x => x.1 ≠ p)

/-- The liquidity stored at a price level, if present. -/
def lookupLevel (l : Side) (p : ℚ) : Option ℚ :=
  (l.find? (fun x => x.1 = p)).map (·.2)

/-- One delta of `Update`: `if qty == 0 { delete } else { replace }`.
The zero test in the source is the plain float `==`, not `IsZero`. -/
def applyDelta (l : Side) (d : ℚ × ℚ) : Side :=
  if d.2 = 0 then eraseLevel l d.1 else setLevel l d.1 d.2

/-- `Update` merges new data into the orderbook and always overwrites
latency and timestamp. -/
def Update (ob : OrderBook) (bids asks : List (ℚ × ℚ)) (latency : ℚ)
    (lastUpdateTs : ℤ) : OrderBook :=
  { Bids := bids.foldl applyDelta ob.Bids
    Asks := asks.foldl applyDelta ob.Asks
    Latency := latency
    LastUpdateTs := lastUpdateTs }

/-- The fold of `GetBestBid`: start from `(0, 0)` and keep the level with the
larger price (`if price > bestPrice`). -/
def bestBidAux : Side → (ℚ × ℚ) → (ℚ × ℚ)
  | [], best => best
  | (p, q) :: rest, best => bestBidAux rest (if best.1 < p then (p, q) else best)

/-- `GetBestBid` returns the highest bid price (with its liquidity); `none`
mirrors the `false` flag on an empty side. -/
def GetBestBid (ob : OrderBook) : Option (ℚ × ℚ) :=
  if ob.Bids = [] then none else some (bestBidAux ob.Bids (0, 0))

/-- The fold of `GetBestAsk`: start from price `-1` and take a level when
`bestPrice < 0 || price < bestPrice`. -/
def bestAskAux : Side → (ℚ × ℚ) → (ℚ × ℚ)
  | [], best => best
  | (p, q) :: rest, best =>
    bestAskAux rest (if best.1 < 0 ∨ p < best.1 then (p, q) else best)

/-- `GetBestAsk` returns the lowest ask price (with its liquidity). -/
def GetBestAsk (ob : OrderBook) : Option (ℚ × ℚ) :=
  if ob.Asks = [] then none else some (bestAskAux ob.Asks (-1, 0))

end orderbook

namespace detector

open common orderbook

/-- A detected arbitrage opportunity (the detector's `Opportunity` value;
the wall-clock `Timestamp` field is dropped). -/
structure Opportunity where
  Pair : String
  SpotExchange : String
  PerpExchange : String
  SpotAskPrice : ℚ
  SpotAskVolume : ℚ
  PerpBidPrice : ℚ
  PerpBidVolume : ℚ
  SpreadPct : ℚ
  UsableVolumeUSD : ℚ
deriving DecidableEq, Repr

/-- The per-symbol pair state: named spot and perp order books
(`PairManager`'s `spotBooks`/`perpBooks`, exchange name → book). -/
structure PairManagerState where
  pairName : String
  spotBooks : List (String × OrderBook)
  perpBooks : List (String × OrderBook)
deriving DecidableEq, Repr

/-- `isReliable`: `LessThan(Latency, 200)` and the book's age
`now - LastUpdateTs` (milliseconds) satisfies `LessThan(age, 5000)`. -/
def isReliable (now : ℤ) (ob : OrderBook) : Bool :=
  LessThan ob.Latency 200 && LessThan ((now - ob.LastUpdateTs : ℤ) : ℚ) 5000

/-- First `some` produced by `f` along the list (the `return` inside the
detector's nested loops). -/
def findFirstSome {α β : Type} (l : List α) (f : α → Option β) : Option β :=
  match l with
  | [] => none
  | x :: rest =>
    match f x with
    | some b => some b
    | none => findFirstSome rest f

/-- The `minVolume` chain of `analyzeSignal`: start from the spot-side
liquidity, lower to the perp-side liquidity, lower to the target notional —
each step through the epsilon `LessThan`. -/
def minUsableVolume (spotAskVol perpBidVol targetNotionalUSD : ℚ) : ℚ :=
  if LessThan targetNotionalUSD
      (if LessThan perpBidVol spotAskVol then perpBidVol else spotAskVol)
  then targetNotionalUSD
  else if LessThan perpBidVol spotAskVol then perpBidVol else spotAskVol

/-- The body of `analyzeSignal`'s inner (perp) loop for one candidate perp
exchange, given the spot side already in hand.  The target notional is the
hard-coded `20.0` USD. -/
def perpStep (pairName spotExchange : String) (spotBestAsk spotAskVol : ℚ)
    (now : ℤ) (cand : String × OrderBook) : Option Opportunity :=
  if cand.1 = spotExchange then none
  else if !(isReliable now cand.2) then none
  else
    match GetBestBid cand.2 with
    | none => none
    | some (perpBestBid, perpBidVol) =>
      if LessThan (minUsableVolume spotAskVol perpBidVol 20) 20
          && !(CanAchieveVolume (minUsableVolume spotAskVol perpBidVol 20) spotBestAsk pairName
               && CanAchieveVolume (minUsableVolume spotAskVol perpBidVol 20) perpBestBid pairName)
      then none
      else if LessThan spotAskVol (CalculateMinAchievableVolume spotBestAsk pairName)
          || LessThan perpBidVol (CalculateMinAchievableVolume perpBestBid pairName)
      then none
      else if GreaterThan perpBestBid spotBestAsk then
        some { Pair := pairName
               SpotExchange := spotExchange
               PerpExchange := cand.1
               SpotAskPrice := spotBestAsk
               SpotAskVolume := spotAskVol
               PerpBidPrice := perpBestBid
               PerpBidVolume := perpBidVol
               SpreadPct := (perpBestBid - spotBestAsk) / spotBestAsk * 100
               UsableVolumeUSD := minUsableVolume spotAskVol perpBidVol 20 }
      else none

/-- The body of `analyzeSignal`'s outer (spot) loop for one spot exchange. -/
def spotStep (pairName : String) (now : ℤ) (perpBooks : List (String × OrderBook))
    (cand : String × OrderBook) : Option Opportunity :=
  if !(isReliable now cand.2) then none
  else
    match GetBestAsk cand.2 with
    | none => none
    | some (spotBestAsk, spotAskVol) =>
      findFirstSome perpBooks (perpStep pairName cand.1 spotBestAsk spotAskVol now)

/-- `analyzeSignal`: iterate spot exchanges, then perp exchanges; the first
emission wins. -/
def analyzeSignal (now : ℤ) (pm : PairManagerState) : Option Opportunity :=
  findFirstSome pm.spotBooks (spotStep pm.pairName now pm.perpBooks)

/-- The observable effects of one `AnalyzePair` call: the argument tuple of
the price-update callback if it was invoked, and whether
`executeOpportunity` was entered. -/
structure AnalyzeEffects where
  priceUpdate : Option (String × String × ℚ × String × ℚ)
  executed : Bool
deriving DecidableEq, Repr

/-- `AnalyzePair` (`unnamed/part_010` version): run `analyzeSignal`; when it
yields an opportunity, invoke the price-update callback if it is set and
both exchanges are supported and distinct, and execute when additionally
`GreaterThanOrEqual(SpreadPct, 0.0001)`. -/
def AnalyzePair (now : ℤ) (supportedExchanges : List String)
    (callbackSet : Bool) (pm : PairManagerState) : AnalyzeEffects :=
  match analyzeSignal now pm with
  | none => { priceUpdate := none, executed := false }
  | some opportunity =>
    let spotSupported := supportedExchanges.contains opportunity.SpotExchange
    let perpSupported := supportedExchanges.contains opportunity.PerpExchange
    let differentExchanges : Bool := opportunity.SpotExchange ≠ opportunity.PerpExchange
    { priceUpdate :=
        if callbackSet && spotSupported && perpSupported && differentExchanges then
          some (pm.pairName, opportunity.PerpExchange, opportunity.PerpBidPrice,
                opportunity.SpotExchange, opportunity.SpotAskPrice)
        else none
      executed :=
        spotSupported && perpSupported && differentExchanges
          && GreaterThanOrEqual opportunity.SpreadPct (1 / 10000) }

end detector

namespace controller

open common

/-- `ArbitragePosition` (`arbitrage.go`); the mutex and the log-throttling
field `LastLogTime` are dropped, `EntryTime` is kept in seconds. -/
structure ArbitragePosition where
  PairName : String
  ShortExchange : String
  LongExchange : String
  EntryShortPrice : ℚ
  EntryLongPrice : ℚ
  EntrySpread : ℚ
  AmountUSDT : ℚ
  EntryTime : ℚ
  IsOpen : Bool
deriving DecidableEq, Repr

/-- The exit-condition computation of `UpdatePrices` (`arbitrage.go`): the
three threshold comparisons are the plain float `>=` / `<=`, not the
epsilon helpers.  `currentSpread = (short − long)/long × 100` and
`spreadConvergence = (entry − current)/entry × 100` are inlined. -/
def shouldClosePosition (position : ArbitragePosition)
    (shortPrice longPrice now : ℚ) : Bool :=
  if (60 : ℚ) ≤ (position.EntrySpread - (shortPrice - longPrice) / longPrice * 100)
      / position.EntrySpread * 100 then true
  else if (shortPrice - longPrice) / longPrice * 100 ≤ 0 then true
  else if (58 : ℚ) ≤ now - position.EntryTime then true
  else false

/-- `UpdatePrices` (`arbitrage.go`): look up the position, require it open
and matching the update's exchanges, then decide whether `closePosition`
is dispatched.  Returns that decision. -/
def UpdatePrices (activePositions : List (String × ArbitragePosition))
    (pairName shortExchange : String) (shortPrice : ℚ)
    (longExchange : String) (longPrice now : ℚ) : Bool :=
  match activePositions.lookup pairName with
  | none => false
  | some position =>
    if !position.IsOpen then false
    else if position.ShortExchange ≠ shortExchange
        ∨ position.LongExchange ≠ longExchange then false
    else shouldClosePosition position shortPrice longPrice now

/-- The exit-condition computation as the spec's §4.1 epsilon discipline
would have it: every threshold comparison through the shared epsilon
helpers.  Stated from the spec's words, for comparison with
`shouldClosePosition`, which is the source's computation. -/
def shouldCloseEpsilonDiscipline (position : ArbitragePosition)
    (shortPrice longPrice now : ℚ) : Bool :=
  if GreaterThanOrEqual ((position.EntrySpread - (shortPrice - longPrice) / longPrice * 100)
      / position.EntrySpread * 100) 60 then true
  else if LessThanOrEqual ((shortPrice - longPrice) / longPrice * 100) 0 then true
  else if GreaterThanOrEqual (now - position.EntryTime) 58 then true
  else false

/-- The entry gate and position construction of
`ConsiderArbitrageOpportunity` (`arbitrage.go`): return the inserted
position, or `none` when the threshold gate `LessThan(diffPercent, 0.0001)`
fires or the pair already has an active position. -/
def ConsiderArbitrageOpportunity
    (activePositions : List (String × ArbitragePosition))
    (shortExchange : String) (shortPrice : ℚ) (longExchange : String)
    (longPrice : ℚ) (pairName : String) (diffPercent amountUSDT now : ℚ) :
    Option ArbitragePosition :=
  if LessThan diffPercent (1 / 10000) then none
  else if (activePositions.lookup pairName).isSome then none
  else
    some { PairName := pairName
           ShortExchange := shortExchange
           LongExchange := longExchange
           EntryShortPrice := shortPrice
           EntryLongPrice := longPrice
           EntrySpread := diffPercent
           AmountUSDT := amountUSDT
           EntryTime := now
           IsOpen := true }

/-- The four venue-adapter operations dispatched by `clients.Execute`. -/
inductive OrderCommand
  | putSpotLong
  | putFuturesShort
  | closeSpotLong
  | closeFuturesShort
deriving DecidableEq, Repr

/-- Whether a command closes a leg (an unwind would issue one of these). -/
def isCloseCommand : OrderCommand → Bool
  | OrderCommand.closeSpotLong => true
  | OrderCommand.closeFuturesShort => true
  | _ => false

/-- A `TradeExecution` message as built by `clients.Execute` on a
successful leg (`Price` and `SpreadPct` are hard-coded to 0 there). -/
structure TradeEvent where
  exchange : String
  pair : String
  side : String
  action : String
  amount : ℚ
  price : ℚ
  spreadPct : ℚ
deriving DecidableEq, Repr

/-- The side/action strings `clients.Execute` attaches to each command. -/
def executeEvent (exchange : String) (command : OrderCommand)
    (pair : String) (amount : ℚ) : TradeEvent :=
  let side := match command with
    | OrderCommand.putSpotLong => "spot_long"
    | OrderCommand.closeSpotLong => "spot_long"
    | OrderCommand.putFuturesShort => "futures_short"
    | OrderCommand.closeFuturesShort => "futures_short"
  let action := match command with
    | OrderCommand.putSpotLong => "open"
    | OrderCommand.putFuturesShort => "open"
    | OrderCommand.closeSpotLong => "close"
    | OrderCommand.closeFuturesShort => "close"
  { exchange := exchange, pair := pair, side := side, action := action,
    amount := amount, price := 0, spreadPct := 0 }

/-- `clients.Execute` publishes a `TradeExecution` exactly when the venue
call returned no error. -/
def executePublished (callErr : Bool) (exchange : String)
    (command : OrderCommand) (pair : String) (amount : ℚ) : List TradeEvent :=
  if callErr then [] else [executeEvent exchange command pair amount]

/-- The observable outcome of one live open attempt
(`ConsiderArbitrageOpportunity` of `unnamed/part_008` past its gates,
with `clients.Execute` as the leg runner). -/
structure OpenAttemptResult where
  finalIsOpen : Bool
  removedFromTable : Bool
  publishedEvents : List TradeEvent
  commandsIssued : List (String × OrderCommand)
deriving DecidableEq, Repr

/-- The live `ConsiderArbitrageOpportunity` (`unnamed/part_008`): entry gate
`LessThan(diffPercent, 0.5)`, single-flight per symbol, then both open legs
through `clients.Execute`; a leg failure flips `IsOpen` off and the
position is removed from the table afterwards.  `none` models the early
returns (no position touched); the two legs run concurrently in the source,
so the order of `publishedEvents` is fixed here by convention. -/
def ConsiderArbitrageOpportunityLive (alreadyActive : Bool)
    (shortExchange longExchange pairName : String)
    (diffPercent amountUSDT : ℚ) (futuresOpenErr spotOpenErr : Bool) :
    Option OpenAttemptResult :=
  if LessThan diffPercent (1 / 2) then none
  else if alreadyActive then none
  else
    let isOpen := !futuresOpenErr && !spotOpenErr
    some { finalIsOpen := isOpen
           removedFromTable := !isOpen
           publishedEvents :=
             executePublished futuresOpenErr shortExchange
               OrderCommand.putFuturesShort pairName amountUSDT
             ++ executePublished spotOpenErr longExchange
               OrderCommand.putSpotLong pairName amountUSDT
           commandsIssued :=
             [(shortExchange, OrderCommand.putFuturesShort),
              (longExchange, OrderCommand.putSpotLong)] }

end controller

namespace redis

/-- How one publish call ended. -/
inductive PublishOutcome
  | skippedNoClient
  | marshalFailedLogged
  | busFailedLogged
  | delivered
deriving DecidableEq, Repr

/-- The observable effect of one publish call: which topics were actually
published to, the error surfaced to the caller (the Go functions return
nothing, so always `none`), and the timeout of the context created for the
bus call, if one was created. -/
structure PublishEffect where
  outcome : PublishOutcome
  sentTopics : List String
  errorSurfaced : Option String
  contextTimeoutSeconds : Option ℕ
deriving DecidableEq, Repr

/-- `InitRedis`: when the start-up ping fails the package-level client is
set to `nil` (`none`) and the system keeps running. -/
def InitRedis (pingOk : Bool) : Option Unit :=
  if pingOk then some () else none

/-- `PublishTradeExecution`: no-op when the client is `nil`; otherwise a 3 s
context, then marshal (failure logged, swallowed), then publish to
`arbitrage-trade-execution` (failure logged, swallowed). -/
def PublishTradeExecution (client : Option Unit)
    (marshalFails busFails : Bool) : PublishEffect :=
  match client with
  | none =>
    { outcome := PublishOutcome.skippedNoClient, sentTopics := [],
      errorSurfaced := none, contextTimeoutSeconds := none }
  | some _ =>
    if marshalFails then
      { outcome := PublishOutcome.marshalFailedLogged, sentTopics := [],
        errorSurfaced := none, contextTimeoutSeconds := some 3 }
    else if busFails then
      { outcome := PublishOutcome.busFailedLogged, sentTopics := [],
        errorSurfaced := none, contextTimeoutSeconds := some 3 }
    else
      { outcome := PublishOutcome.delivered,
        sentTopics := ["arbitrage-trade-execution"],
        errorSurfaced := none, contextTimeoutSeconds := some 3 }

/-- `PublishTradeSummary`: same shape as `PublishTradeExecution`, topic
`arbitrage-trade-summary`. -/
def PublishTradeSummary (client : Option Unit)
    (marshalFails busFails : Bool) : PublishEffect :=
  match client with
  | none =>
    { outcome := PublishOutcome.skippedNoClient, sentTopics := [],
      errorSurfaced := none, contextTimeoutSeconds := none }
  | some _ =>
    if marshalFails then
      { outcome := PublishOutcome.marshalFailedLogged, sentTopics := [],
        errorSurfaced := none, contextTimeoutSeconds := some 3 }
    else if busFails then
      { outcome := PublishOutcome.busFailedLogged, sentTopics := [],
        errorSurfaced := none, contextTimeoutSeconds := some 3 }
    else
      { outcome := PublishOutcome.delivered,
        sentTopics := ["arbitrage-trade-summary"],
        errorSurfaced := none, contextTimeoutSeconds := some 3 }

end redis

namespace adapters

open common

/-- The result of a spot-close attempt, up to the order placement. -/
inductive CloseSpotResult
  | errNoPosition
  | errBalanceFetchFailed
  | errNoBalance
  | errInvalidQuantity
  | orderPlaced (sellQuantity : ℚ)
deriving DecidableEq, Repr

/-- OKX `CloseSpotLong` (`unnamed/part_006`) up to the order placement:
positions-cache check, base-balance fetch, `IsNegativeOrZero` check on the
RAW balance, then `RoundQuantity` and straight to the market sell — the
rounded quantity is never itself validated. -/
def Okx.CloseSpotLong (positionExists : Bool) (balanceFetch : Option ℚ)
    (pairName : String) : CloseSpotResult :=
  if !positionExists then CloseSpotResult.errNoPosition
  else
    match balanceFetch with
    | none => CloseSpotResult.errBalanceFetchFailed
    | some balance =>
      if IsNegativeOrZero balance then CloseSpotResult.errNoBalance
      else CloseSpotResult.orderPlaced (RoundQuantity balance pairName)

/-- Binance `CloseSpotLong` (`clients/binance/spot.go`) up to the order
placement: base-balance fetch, `IsZero` check on the raw balance, then
`RoundQuantity` and an `IsNegativeOrZero` check on the ROUNDED quantity,
failing with an invalid-quantity error before any order. -/
def Binance.CloseSpotLong (balanceFetch : Option ℚ) (pairName : String) :
    CloseSpotResult :=
  match balanceFetch with
  | none => CloseSpotResult.errBalanceFetchFailed
  | some balance =>
    if IsZero balance then CloseSpotResult.errNoBalance
    else
      let closeQuantity := RoundQuantity balance pairName
      if IsNegativeOrZero closeQuantity then CloseSpotResult.errInvalidQuantity
      else CloseSpotResult.orderPlaced closeQuantity

/-- The close-leg profit computation shared by the adapters
(`profit := newBalance - prevBalance` with `prevBalance` read from the
process-wide balance store). -/
def closeLegProfit (store : ExchangeBalances) (exchange : String)
    (newBalance : ℚ) : ℚ :=
  newBalance - GetBalance store exchange "spot" "USDT"

end adapters

/-! Concrete fixtures used by counterexamples and witnesses. -/

/-- A fresh spot book whose best ask (2) is above the perp best bid. -/
def spotBookNoEdge : orderbook.OrderBook :=
  { Bids := [], Asks := [((2 : ℚ), 100)], Latency := 0, LastUpdateTs := 0 }

/-- A fresh perp book whose best bid (1) is below the spot best ask. -/
def perpBookNoEdge : orderbook.OrderBook :=
  { Bids := [((1 : ℚ), 100)], Asks := [], Latency := 0, LastUpdateTs := 0 }

/-- A pair state passing freshness and side gates but failing the
directional gate. -/
def pairStateNoEdge : detector.PairManagerState :=
  { pairName := "xrp-usdt"
    spotBooks := [("okx", spotBookNoEdge)]
    perpBooks := [("binance", perpBookNoEdge)] }

/-- A fresh spot book for `matic-usdt` (quantity precision 0) with best ask
25 and 100 USDT of liquidity. -/
def spotBookTargetCase : orderbook.OrderBook :=
  { Bids := [], Asks := [((25 : ℚ), 100)], Latency := 0, LastUpdateTs := 0 }

/-- A fresh perp book for `matic-usdt` with best bid 26 and 100 USDT of
liquidity. -/
def perpBookTargetCase : orderbook.OrderBook :=
  { Bids := [((26 : ℚ), 100)], Asks := [], Latency := 0, LastUpdateTs := 0 }

/-- A pair state where both books cover the 20 USD target notional but the
target itself is below each side's minimum achievable volume (25 resp. 26). -/
def pairStateTargetCase : detector.PairManagerState :=
  { pairName := "matic-usdt"
    spotBooks := [("okx", spotBookTargetCase)]
    perpBooks := [("binance", perpBookTargetCase)] }

/-- An open position with entry spread 1 % used to probe the exit-policy
comparisons. -/
def positionProbe : controller.ArbitragePosition :=
  { PairName := "xrp-usdt", ShortExchange := "binance", LongExchange := "okx",
    EntryShortPrice := 101, EntryLongPrice := 100, EntrySpread := 1,
    AmountUSDT := 20, EntryTime := 0, IsOpen := true }

/-- A perp price making the convergence land within `Epsilon` below the
60 % threshold (convergence `60 - 1e-10`). -/
def probeShortPrice : ℚ := 100 + 2 / 5 + 1 / 1000000000000

/-- The opportunity the detector emits on `pairStateTargetCase`. -/
def opportunityTargetCase : detector.Opportunity :=
  { Pair := "matic-usdt", SpotExchange := "okx", PerpExchange := "binance",
    SpotAskPrice := 25, SpotAskVolume := 100, PerpBidPrice := 26,
    PerpBidVolume := 100, SpreadPct := 4, UsableVolumeUSD := 20 }

/-! Helper lemmas. -/

open common orderbook detector controller redis adapters

theorem lookup_setAssoc_same {α : Type} (l : List (String × α)) (k : String)
    (v : α) : (common.setAssoc l k v).lookup k = some v := by
  induction l with
  | nil => simp [common.setAssoc, List.lookup]
  | cons hd tl ih =>
    obtain ⟨k', v'⟩ := hd
    by_cases hk : k' = k
    · simp [common.setAssoc, hk, List.lookup]
    · simp only [common.setAssoc, if_neg hk, List.lookup]
      have : (k == k') = false := by
        simpa [beq_iff_eq] using fun h => hk h.symm
      simp [this, ih]

theorem lookup_setAssoc_ne {α : Type} (l : List (String × α)) (k k' : String)
    (v : α) (hne : k' ≠ k) :
    (common.setAssoc l k v).lookup k' = l.lookup k' := by
  induction l with
  | nil =>
    have : (k' == k) = false := by simpa [beq_iff_eq] using hne
    simp [common.setAssoc, List.lookup, this]
  | cons hd tl ih =>
    obtain ⟨k0, v0⟩ := hd
    by_cases hk : k0 = k
    · subst hk
      have h1 : (k' == k0) = false := by simpa [beq_iff_eq] using hne
      simp [common.setAssoc, List.lookup, h1]
    · simp only [common.setAssoc, if_neg hk, List.lookup]
      cases hbeq : (k' == k0) <;> simp [hbeq, ih]

theorem lookupLevel_setLevel_same (l : orderbook.Side) (p q : ℚ) :
    lookupLevel (setLevel l p q) p = some q := by
  induction l with
  | nil => simp [setLevel, lookupLevel, List.find?]
  | cons hd tl ih =>
    obtain ⟨p', q'⟩ := hd
    by_cases hp : p' = p
    · simp [setLevel, hp, lookupLevel, List.find?]
    · simp only [setLevel, if_neg hp]
      simp only [lookupLevel, List.find?] at ih ⊢
      simp [hp, ih]

theorem lookupLevel_eraseLevel (l : orderbook.Side) (p : ℚ) :
    lookupLevel (eraseLevel l p) p = none := by
  induction l with
  | nil => simp [eraseLevel, lookupLevel, List.find?]
  | cons hd tl ih =>
    obtain ⟨p', q'⟩ := hd
    by_cases hp : p' = p
    · simp only [eraseLevel, List.filter] at ih ⊢
      simp [hp] at ih ⊢
      exact ih
    · simp only [eraseLevel, List.filter] at ih ⊢
      simp only [lookupLevel] at ih ⊢
      simp [hp] at ih ⊢

theorem findFirstSome_eq_some {α β : Type} {l : List α} {f : α → Option β}
    {b : β} (h : findFirstSome l f = some b) : ∃ a, a ∈ l ∧ f a = some b := by
  induction l with
  | nil => simp [findFirstSome] at h
  | cons x rest ih =>
    simp only [findFirstSome] at h
    cases hx : f x with
    | some b2 =>
      rw [hx] at h
      simp at h
      exact ⟨x, by simp, by rw [hx, h]⟩
    | none =>
      rw [hx] at h
      simp at h
      obtain ⟨a, ha, hfa⟩ := ih h
      exact ⟨a, by simp [ha], hfa⟩

theorem perpStep_some
    (pairName spotExchange : String) (spotBestAsk spotAskVol : ℚ) (now : ℤ)
    (cand : String × OrderBook) (o : Opportunity)
    (h : perpStep pairName spotExchange spotBestAsk spotAskVol now cand = some o) :
    o.Pair = pairName ∧ o.SpotExchange = spotExchange ∧ o.PerpExchange = cand.1
    ∧ o.SpotAskPrice = spotBestAsk ∧ o.SpotAskVolume = spotAskVol
    ∧ GetBestBid cand.2 = some (o.PerpBidPrice, o.PerpBidVolume)
    ∧ cand.1 ≠ spotExchange
    ∧ isReliable now cand.2 = true
    ∧ GreaterThan o.PerpBidPrice o.SpotAskPrice = true
    ∧ o.SpreadPct = (o.PerpBidPrice - o.SpotAskPrice) / o.SpotAskPrice * 100
    ∧ o.UsableVolumeUSD = minUsableVolume o.SpotAskVolume o.PerpBidVolume 20
    ∧ (LessThan o.UsableVolumeUSD 20 = true →
        CanAchieveVolume o.UsableVolumeUSD o.SpotAskPrice pairName = true
        ∧ CanAchieveVolume o.UsableVolumeUSD o.PerpBidPrice pairName = true)
    ∧ LessThan o.SpotAskVolume (CalculateMinAchievableVolume o.SpotAskPrice pairName) = false
    ∧ LessThan o.PerpBidVolume (CalculateMinAchievableVolume o.PerpBidPrice pairName) = false := by
  unfold perpStep at h
  split at h
  · simp at h
  · rename_i hne
    split at h
    · simp at h
    · rename_i hrel
      simp at hrel
      cases hbb : GetBestBid cand.2 with
      | none => rw [hbb] at h; simp at h
      | some pr =>
        obtain ⟨perpBestBid, perpBidVol⟩ := pr
        rw [hbb] at h
        simp only at h
        split at h
        · simp at h
        · rename_i hg2
          split at h
          · simp at h
          · rename_i hg3
            split at h
            · rename_i hdir
              cases h
              dsimp only
              simp at hg3
              refine ⟨rfl, rfl, rfl, rfl, rfl, rfl, hne, hrel, hdir, rfl, rfl,
                ?_, hg3.1, hg3.2⟩
              intro hlt
              rw [hlt] at hg2
              simp at hg2
              exact hg2
            · simp at h

theorem spotStep_some (pairName : String) (now : ℤ)
    (perpBooks : List (String × OrderBook)) (cand : String × OrderBook)
    (o : Opportunity) (h : spotStep pairName now perpBooks cand = some o) :
    isReliable now cand.2 = true
    ∧ ∃ sa sv, GetBestAsk cand.2 = some (sa, sv)
      ∧ ∃ pcand, pcand ∈ perpBooks
        ∧ perpStep pairName cand.1 sa sv now pcand = some o := by
  unfold spotStep at h
  split at h
  · simp at h
  · rename_i hrel
    simp at hrel
    cases hba : GetBestAsk cand.2 with
    | none => rw [hba] at h; simp at h
    | some pr =>
      obtain ⟨sa, sv⟩ := pr
      rw [hba] at h
      obtain ⟨pcand, hmem, hps⟩ := findFirstSome_eq_some h
      exact ⟨hrel, sa, sv, rfl, pcand, hmem, hps⟩

theorem analyzeSignal_some (now : ℤ) (pm : PairManagerState) (o : Opportunity)
    (h : analyzeSignal now pm = some o) :
    o.Pair = pm.pairName
    ∧ o.SpotExchange ≠ o.PerpExchange
    ∧ GreaterThan o.PerpBidPrice o.SpotAskPrice = true
    ∧ o.SpreadPct = (o.PerpBidPrice - o.SpotAskPrice) / o.SpotAskPrice * 100
    ∧ o.UsableVolumeUSD = minUsableVolume o.SpotAskVolume o.PerpBidVolume 20
    ∧ (LessThan o.UsableVolumeUSD 20 = true →
        CanAchieveVolume o.UsableVolumeUSD o.SpotAskPrice pm.pairName = true
        ∧ CanAchieveVolume o.UsableVolumeUSD o.PerpBidPrice pm.pairName = true)
    ∧ LessThan o.SpotAskVolume (CalculateMinAchievableVolume o.SpotAskPrice pm.pairName) = false
    ∧ LessThan o.PerpBidVolume (CalculateMinAchievableVolume o.PerpBidPrice pm.pairName) = false := by
  unfold analyzeSignal at h
  obtain ⟨scand, _, hss⟩ := findFirstSome_eq_some h
  obtain ⟨_, sa, sv, _, pcand, _, hps⟩ := spotStep_some _ _ _ _ _ hss
  obtain ⟨hp1, hp2, hp3, _, _, _, hp7, _, hp9, hp10, hp11, hp12, hp13, hp14⟩ :=
    perpStep_some _ _ _ _ _ _ _ hps
  refine ⟨hp1, ?_, hp9, hp10, hp11, hp12, hp13, hp14⟩
  rw [hp2, hp3]
  exact fun hcontra => hp7 hcontra.symm

theorem bestBidAux_spec (l : orderbook.Side) (best : ℚ × ℚ) :
    (bestBidAux l best = best ∨ bestBidAux l best ∈ l)
    ∧ best.1 ≤ (bestBidAux l best).1
    ∧ ∀ x ∈ l, x.1 ≤ (bestBidAux l best).1 := by
  induction l generalizing best with
  | nil => simp [bestBidAux]
  | cons hd tl ih =>
    obtain ⟨p, q⟩ := hd
    simp only [bestBidAux]
    by_cases hc : best.1 < p
    · rw [if_pos hc]
      obtain ⟨ihm, ihge, ihall⟩ := ih (p, q)
      refine ⟨?_, le_trans (le_of_lt hc) ihge, ?_⟩
      · rcases ihm with hm | hm
        · exact Or.inr (by simp [hm])
        · exact Or.inr (by simp [hm])
      · intro x hx
        rcases List.mem_cons.mp hx with hx | hx
        · subst hx; exact ihge
        · exact ihall x hx
    · rw [if_neg hc]
      obtain ⟨ihm, ihge, ihall⟩ := ih best
      refine ⟨?_, ihge, ?_⟩
      · rcases ihm with hm | hm
        · exact Or.inl hm
        · exact Or.inr (by simp [hm])
      · intro x hx
        rcases List.mem_cons.mp hx with hx | hx
        · subst hx
          exact le_trans (le_of_not_lt hc) ihge
        · exact ihall x hx

theorem bestAskAux_spec (l : orderbook.Side) (best : ℚ × ℚ)
    (hb : 0 ≤ best.1) (hl : ∀ x ∈ l, 0 ≤ x.1) :
    (bestAskAux l best = best ∨ bestAskAux l best ∈ l)
    ∧ (bestAskAux l best).1 ≤ best.1
    ∧ ∀ x ∈ l, (bestAskAux l best).1 ≤ x.1 := by
  induction l generalizing best with
  | nil => simp [bestAskAux]
  | cons hd tl ih =>
    obtain ⟨p, q⟩ := hd
    simp only [bestAskAux]
    have hnneg : ¬(best.1 < 0) := not_lt.mpr hb
    by_cases hc : p < best.1
    · rw [if_pos (Or.inr hc)]
      obtain ⟨ihm, ihle, ihall⟩ :=
        ih (p, q) (hl (p, q) (by simp)) (fun x hx => hl x (by simp [hx]))
      refine ⟨?_, le_trans ihle (le_of_lt hc), ?_⟩
      · rcases ihm with hm | hm
        · exact Or.inr (by simp [hm])
        · exact Or.inr (by simp [hm])
      · intro x hx
        rcases List.mem_cons.mp hx with hx | hx
        · subst hx; exact ihle
        · exact ihall x hx
    · rw [if_neg (by tauto)]
      obtain ⟨ihm, ihle, ihall⟩ :=
        ih best hb (fun x hx => hl x (by simp [hx]))
      refine ⟨?_, ihle, ?_⟩
      · rcases ihm with hm | hm
        · exact Or.inl hm
        · exact Or.inr (by simp [hm])
      · intro x hx
        rcases List.mem_cons.mp hx with hx | hx
        · subst hx
          exact le_trans ihle (le_of_not_lt hc)
        · exact ihall x hx

theorem getBalance_setBalance_same (s : common.ExchangeBalances)
    (e m a : String) (v : ℚ) :
    common.GetBalance (common.SetBalance s e m a v) e m a = v := by
  unfold common.GetBalance common.SetBalance
  dsimp only
  rw [lookup_setAssoc_same]
  dsimp only
  rw [lookup_setAssoc_same]
  dsimp only
  rw [lookup_setAssoc_same]

theorem getBalance_setBalance_ne (s : common.ExchangeBalances)
    (e m a e' m' a' : String) (v : ℚ) (h : ¬(e' = e ∧ m' = m ∧ a' = a)) :
    common.GetBalance (common.SetBalance s e' m' a' v) e m a
      = common.GetBalance s e m a := by
  by_cases he : e' = e
  · subst he
    by_cases hm : m' = m
    · subst hm
      have ha : a' ≠ a := fun hv => h ⟨rfl, rfl, hv⟩
      unfold common.GetBalance common.SetBalance
      dsimp only
      rw [lookup_setAssoc_same]
      dsimp only
      rw [lookup_setAssoc_same]
      dsimp only
      rw [lookup_setAssoc_ne _ _ _ _ (Ne.symm ha)]
      cases hse : s.lookup e' with
      | none => simp [hse, List.lookup]
      | some mk0 =>
        simp only [hse, Option.getD]
        cases hsm : mk0.lookup m' with
        | none => simp [List.lookup]
        | some as0 => simp
    · unfold common.GetBalance common.SetBalance
      dsimp only
      rw [lookup_setAssoc_same]
      dsimp only
      rw [lookup_setAssoc_ne _ _ _ _ (Ne.symm hm)]
      cases hse : s.lookup e' with
      | none => simp [hse, List.lookup]
      | some mk0 => simp [hse]
  · unfold common.GetBalance common.SetBalance
    dsimp only
    rw [lookup_setAssoc_ne _ _ _ _ (Ne.symm he)]

theorem lastWritten_acc (ops : List common.BalanceOp) (e m a : String)
    (acc : Option ℚ) :
    List.foldl
      (fun acc2 (op : common.BalanceOp) =>
        if op.1 = e ∧ op.2.1 = m ∧ op.2.2.1 = a then some op.2.2.2 else acc2)
      acc ops
      = (common.lastWritten ops e m a).or acc := by
  induction ops generalizing acc with
  | nil => simp [common.lastWritten]
  | cons op ops ih =>
    simp only [List.foldl, common.lastWritten] at ih ⊢
    rw [ih (if op.1 = e ∧ op.2.1 = m ∧ op.2.2.1 = a then some op.2.2.2 else acc),
        ih (if op.1 = e ∧ op.2.1 = m ∧ op.2.2.1 = a then some op.2.2.2 else none)]
    cases hlw :
        List.foldl
          (fun acc2 (op : common.BalanceOp) =>
            if op.1 = e ∧ op.2.1 = m ∧ op.2.2.1 = a then some op.2.2.2 else acc2)
          none ops with
    | some v => simp [Option.or_some]
    | none =>
      simp only [Option.none_or]
      by_cases hc : op.1 = e ∧ op.2.1 = m ∧ op.2.2.1 = a
      · simp [if_pos hc, Option.or_some]
      · simp [if_neg hc, Option.none_or]

theorem getBalance_applyBalanceOps (ops : List common.BalanceOp)
    (s : common.ExchangeBalances) (e m a : String) :
    common.GetBalance (common.applyBalanceOps s ops) e m a
      = (common.lastWritten ops e m a).getD (common.GetBalance s e m a) := by
  induction ops generalizing s with
  | nil => simp [common.applyBalanceOps, common.lastWritten]
  | cons op ops ih =>
    simp only [common.applyBalanceOps, List.foldl] at ih ⊢
    rw [ih]
    have hcons : common.lastWritten (op :: ops) e m a
        = (common.lastWritten ops e m a).or
            (if op.1 = e ∧ op.2.1 = m ∧ op.2.2.1 = a
             then some op.2.2.2 else none) := by
      simpa [common.lastWritten] using lastWritten_acc ops e m a
        (if op.1 = e ∧ op.2.1 = m ∧ op.2.2.1 = a then some op.2.2.2 else none)
    rw [hcons]
    cases hlw : common.lastWritten ops e m a with
    | some v => simp [Option.or_some]
    | none =>
      simp only [Option.none_or]
      by_cases hc : op.1 = e ∧ op.2.1 = m ∧ op.2.2.1 = a
      · obtain ⟨h1, h2, h3⟩ := hc
        rw [if_pos ⟨h1, h2, h3⟩]
        simp only [Option.getD]
        rw [← h1, ← h2, ← h3] at *
        exact getBalance_setBalance_same s op.1 op.2.1 op.2.2.1 op.2.2.2
      · rw [if_neg hc]
        simp only [Option.getD]
        exact getBalance_setBalance_ne s e m a op.1 op.2.1 op.2.2.1 op.2.2.2 hc

/-! Claim theorems. -/

/-- Claim C4: for every price update delivered to the controller for a
position that is present, open, and whose (perp venue, spot venue) match
the update, the position is dispatched for closing iff
`convergence_pct ≥ 60` or `current_spread_pct ≤ 0` or elapsed seconds
`≥ 58`, with `current_spread_pct = (perp − spot)/spot × 100` and
`convergence_pct = (entry − current)/entry × 100`. -/
theorem updatePrices_exit_policy
    (activePositions : List (String × controller.ArbitragePosition))
    (pairName shortExchange longExchange : String)
    (shortPrice longPrice now : ℚ) (position : controller.ArbitragePosition)
    (hlook : activePositions.lookup pairName = some position)
    (hopen : position.IsOpen = true)
    (hshort : position.ShortExchange = shortExchange)
    (hlong : position.LongExchange = longExchange) :
    controller.UpdatePrices activePositions pairName shortExchange shortPrice
        longExchange longPrice now = true
      ↔ (60 ≤ (position.EntrySpread - (shortPrice - longPrice) / longPrice * 100)
            / position.EntrySpread * 100
        ∨ (shortPrice - longPrice) / longPrice * 100 ≤ 0
        ∨ 58 ≤ now - position.EntryTime) := by
  subst hshort
  subst hlong
  unfold controller.UpdatePrices
  rw [hlook]
  dsimp only
  rw [hopen]
  simp only [Bool.not_true, Bool.false_eq_true, if_false, ne_eq,
    not_true_eq_false, false_or, or_self, if_neg]
  unfold controller.shouldClosePosition
  split_ifs with h1 h2 h3 <;> simp_all

/-- Witness for `updatePrices_exit_policy`: a spread that crossed zero
dispatches the close. -/
theorem updatePrices_exit_policy_witness :
    controller.UpdatePrices [("xrp-usdt", positionProbe)] "xrp-usdt"
      "binance" 90 "okx" 100 0 = true := by
  have h := updatePrices_exit_policy [("xrp-usdt", positionProbe)] "xrp-usdt"
    "binance" "okx" 90 100 0 positionProbe (by decide) rfl rfl rfl
  exact h.mpr (Or.inr (Or.inl (by norm_num)))

/-- Claim C10: every position inserted by the opportunity-consideration
path has a strictly positive entry spread (the path returns early unless
`¬ LessThan(diffPercent, 0.0001)`, which under `Epsilon = 1e-9` forces
`diffPercent ≥ 0.0001 − 1e-9 > 0`), so the convergence division in the
price-update callback never sees a zero divisor for such positions. -/
theorem considerOpportunity_entry_spread_pos
    (activePositions : List (String × controller.ArbitragePosition))
    (shortExchange : String) (shortPrice : ℚ) (longExchange : String)
    (longPrice : ℚ) (pairName : String) (diffPercent amountUSDT now : ℚ)
    (position : controller.ArbitragePosition)
    (h : controller.ConsiderArbitrageOpportunity activePositions shortExchange
        shortPrice longExchange longPrice pairName diffPercent amountUSDT now
        = some position) :
    0 < position.EntrySpread ∧ position.EntrySpread ≠ 0 := by
  unfold controller.ConsiderArbitrageOpportunity at h
  split at h
  · simp at h
  · rename_i hgate
    split at h
    · simp at h
    · cases h
      dsimp only
      have hq : ¬((1 : ℚ) / 10000 - diffPercent > common.Epsilon) := by
        simpa [common.LessThan] using hgate
      have h1 : (1 : ℚ) / 10000 - diffPercent ≤ common.Epsilon := not_lt.mp hq
      have h2 : common.Epsilon = 1 / 1000000000 := rfl
      rw [h2] at h1
      have hpos : 0 < diffPercent := by linarith
      exact ⟨hpos, ne_of_gt hpos⟩

/-- Witness for `considerOpportunity_entry_spread_pos`: inserting with a
1 % spread. -/
theorem considerOpportunity_entry_spread_pos_witness :
    0 < positionProbe.EntrySpread ∧ positionProbe.EntrySpread ≠ 0 :=
  considerOpportunity_entry_spread_pos [] "binance" 101 "okx" 100 "xrp-usdt"
    1 20 0 positionProbe
    (by norm_num [controller.ConsiderArbitrageOpportunity, common.LessThan,
      common.Epsilon, positionProbe, List.lookup])

/-- Claim C8: publish operations surface no error to the caller, the bus
call carries a 3-second timeout, and with the client left `nil` by a
failed start-up ping every publish is a no-op. -/
theorem publisher_swallows_and_times_out (client : Option Unit)
    (marshalFails busFails : Bool) :
    (redis.PublishTradeExecution client marshalFails busFails).errorSurfaced = none
    ∧ (redis.PublishTradeSummary client marshalFails busFails).errorSurfaced = none
    ∧ (client.isSome = true →
        (redis.PublishTradeExecution client marshalFails busFails).contextTimeoutSeconds
          = some 3
        ∧ (redis.PublishTradeSummary client marshalFails busFails).contextTimeoutSeconds
          = some 3)
    ∧ (redis.PublishTradeExecution (redis.InitRedis false) marshalFails
        busFails).outcome = redis.PublishOutcome.skippedNoClient
    ∧ (redis.PublishTradeExecution (redis.InitRedis false) marshalFails
        busFails).sentTopics = []
    ∧ (redis.PublishTradeSummary (redis.InitRedis false) marshalFails
        busFails).sentTopics = [] := by
  cases client <;> cases marshalFails <;> cases busFails <;>
    simp [redis.PublishTradeExecution, redis.PublishTradeSummary, redis.InitRedis]

/-- Witness for `publisher_swallows_and_times_out`: a marshalling failure
surfaces nothing, and a live client gets the 3 s timeout. -/
theorem publisher_swallows_and_times_out_witness :
    (redis.PublishTradeExecution (some ()) true false).errorSurfaced = none
    ∧ (redis.PublishTradeExecution (some ()) false false).contextTimeoutSeconds
      = some 3 :=
  ⟨(publisher_swallows_and_times_out (some ()) true false).1,
   ((publisher_swallows_and_times_out (some ()) false false).2.2.1 rfl).1⟩

/-- Claim C7 (code bug): with a live base balance of 0.5 and quantity
precision 0 (`matic-usdt`), the OKX spot close floor-rounds the quantity
to 0 and still places the market sell, while the Binance spot close
rejects the same input with an invalid-quantity error before any order. -/
theorem okx_close_spot_zero_quantity_order :
    adapters.Okx.CloseSpotLong true (some (1 / 2)) "matic-usdt"
      = adapters.CloseSpotResult.orderPlaced 0
    ∧ adapters.Binance.CloseSpotLong (some (1 / 2)) "matic-usdt"
      = adapters.CloseSpotResult.errInvalidQuantity := by
  have hprec : common.GetPrecision "matic-usdt"
      = { QuantityPrecision := 0, PricePrecision := 5 } := by decide
  have hround : common.RoundQuantity (1 / 2) "matic-usdt" = 0 := by
    norm_num [common.RoundQuantity, hprec]
  constructor
  · norm_num [adapters.Okx.CloseSpotLong, common.IsNegativeOrZero,
      common.Epsilon, hround]
  · have h1 : common.IsZero ((1 : ℚ) / 2) = false := by
      simp only [common.IsZero, common.Epsilon, decide_eq_false_iff_not, not_lt]
      rw [show |(1 : ℚ) / 2| = 1 / 2 from abs_of_pos (by norm_num)]
      norm_num
    have h2 : common.IsNegativeOrZero (common.RoundQuantity (1 / 2) "matic-usdt")
        = true := by
      rw [hround]
      norm_num [common.IsNegativeOrZero, common.Epsilon]
    unfold adapters.Binance.CloseSpotLong
    dsimp only
    rw [h1, h2]
    simp

/-- Claim C5 counterexample: merging bid 10 and ask 5 into an empty book
is accepted (the book changes) and leaves `best_bid ≥ best_ask` with both
present, so the claimed invariant-or-reject behaviour does not hold. -/
theorem update_crossed_book_counterexample :
    orderbook.GetBestBid
        (orderbook.Update orderbook.NewOrderBook [((10 : ℚ), 1)] [((5 : ℚ), 1)] 0 0)
      = some (10, 1)
    ∧ orderbook.GetBestAsk
        (orderbook.Update orderbook.NewOrderBook [((10 : ℚ), 1)] [((5 : ℚ), 1)] 0 0)
      = some (5, 1)
    ∧ ¬((10 : ℚ) < 5)
    ∧ orderbook.Update orderbook.NewOrderBook [((10 : ℚ), 1)] [((5 : ℚ), 1)] 0 0
        ≠ orderbook.NewOrderBook := by decide

/-- Claim C5 (amended): merges are applied unconditionally (never
rejected), and the invariant that does hold after every merge is the §3
one: when present, the best bid is a greatest bid level and the best ask
a least ask level (for books whose prices are positive, as feed prices
are). -/
theorem update_best_levels (ob : orderbook.OrderBook)
    (bids asks : List (ℚ × ℚ)) (latency : ℚ) (ts : ℤ)
    (ob2 : orderbook.OrderBook)
    (_hob : ob2 = orderbook.Update ob bids asks latency ts)
    (hbid : ∀ x ∈ ob2.Bids, 0 < x.1) (hask : ∀ x ∈ ob2.Asks, 0 ≤ x.1) :
    (∀ p q, orderbook.GetBestBid ob2 = some (p, q) →
      (p, q) ∈ ob2.Bids ∧ ∀ x ∈ ob2.Bids, x.1 ≤ p)
    ∧ (∀ p q, orderbook.GetBestAsk ob2 = some (p, q) →
      (p, q) ∈ ob2.Asks ∧ ∀ x ∈ ob2.Asks, p ≤ x.1) := by
  constructor
  · intro p q hbb
    unfold orderbook.GetBestBid at hbb
    split at hbb
    · simp at hbb
    · rename_i hne
      have hspec := bestBidAux_spec ob2.Bids (0, 0)
      rw [Option.some_inj] at hbb
      rcases hspec.1 with hinit | hmem
      · exfalso
        cases hcons : ob2.Bids with
        | nil => exact hne hcons
        | cons y l =>
          have hy := hspec.2.2 y (by rw [hcons]; simp)
          have hy0 : 0 < y.1 := hbid y (by rw [hcons]; simp)
          rw [hinit] at hy
          simp at hy
          linarith
      · rw [hbb] at hmem
        refine ⟨hmem, ?_⟩
        intro x hx
        have := hspec.2.2 x hx
        rw [hbb] at this
        exact this
  · intro p q hba
    unfold orderbook.GetBestAsk at hba
    split at hba
    · simp at hba
    · rename_i hne
      cases hcons : ob2.Asks with
      | nil => exact absurd hcons hne
      | cons y l =>
        obtain ⟨y1, y2⟩ := y
        have hy0 : (0 : ℚ) ≤ y1 := by
          simpa using hask (y1, y2) (by rw [hcons]; simp)
        have hl0 : ∀ x ∈ l, 0 ≤ x.1 := fun x hx =>
          hask x (by rw [hcons]; simp [hx])
        rw [hcons] at hba
        rw [Option.some_inj] at hba
        simp only [orderbook.bestAskAux] at hba
        rw [if_pos (Or.inl (by norm_num))] at hba
        have hspec := bestAskAux_spec l (y1, y2) (by simpa using hy0) hl0
        rw [hba] at hspec
        obtain ⟨hmem1, hle1, hall⟩ := hspec
        constructor
        · rcases hmem1 with h1 | h1
          · simp [h1]
          · simp [h1]
        · intro x hx
          rcases List.mem_cons.mp hx with hx | hx
          · subst hx
            simpa using hle1
          · exact hall x hx

/-- Witness for `update_best_levels`: on the crossed merge, the best bid
10 is the greatest bid level and the best ask 5 the least ask level. -/
theorem update_best_levels_witness :
    (((10 : ℚ), (1 : ℚ)) ∈
        (orderbook.Update orderbook.NewOrderBook [((10 : ℚ), 1)] [((5 : ℚ), 1)] 0 0).Bids
      ∧ ∀ x ∈ (orderbook.Update orderbook.NewOrderBook [((10 : ℚ), 1)] [((5 : ℚ), 1)] 0 0).Bids,
          x.1 ≤ 10)
    ∧ (((5 : ℚ), (1 : ℚ)) ∈
        (orderbook.Update orderbook.NewOrderBook [((10 : ℚ), 1)] [((5 : ℚ), 1)] 0 0).Asks
      ∧ ∀ x ∈ (orderbook.Update orderbook.NewOrderBook [((10 : ℚ), 1)] [((5 : ℚ), 1)] 0 0).Asks,
          5 ≤ x.1) := by
  have h := update_best_levels orderbook.NewOrderBook [((10 : ℚ), 1)] [((5 : ℚ), 1)]
    0 0 (orderbook.Update orderbook.NewOrderBook [((10 : ℚ), 1)] [((5 : ℚ), 1)] 0 0)
    rfl (by decide) (by decide)
  exact ⟨h.1 10 1 (by decide), h.2 5 1 (by decide)⟩

/-- Claim C6 counterexample: a convergence of `60 − 1e-10` (within the
shared epsilon of the 60 % threshold) does not dispatch a close under the
source's plain `>=`, although the epsilon-discipline comparison of the
spec would. -/
theorem exit_policy_plain_comparison_counterexample :
    controller.shouldClosePosition positionProbe probeShortPrice 100 0 = false
    ∧ controller.shouldCloseEpsilonDiscipline positionProbe probeShortPrice 100 0
      = true := by
  constructor
  · norm_num [controller.shouldClosePosition, positionProbe, probeShortPrice]
  · norm_num [controller.shouldCloseEpsilonDiscipline,
      common.GreaterThanOrEqual, common.LessThanOrEqual, common.Epsilon,
      positionProbe, probeShortPrice]

/-- Claim C6 (amended): the controller's exit-policy comparisons are the
plain exact comparisons, not the epsilon helpers, and the order-book
merge's zero-liquidity test is the exact `== 0`: any nonzero quantity —
even one within epsilon of zero — replaces the level rather than deleting
it. -/
theorem comparison_discipline_amended
    (position : controller.ArbitragePosition) (shortPrice longPrice now : ℚ)
    (l : orderbook.Side) (p q : ℚ) :
    (controller.shouldClosePosition position shortPrice longPrice now = true
      ↔ (60 ≤ (position.EntrySpread - (shortPrice - longPrice) / longPrice * 100)
            / position.EntrySpread * 100
        ∨ (shortPrice - longPrice) / longPrice * 100 ≤ 0
        ∨ 58 ≤ now - position.EntryTime))
    ∧ (q ≠ 0 → orderbook.lookupLevel (orderbook.applyDelta l (p, q)) p = some q)
    ∧ (q = 0 → orderbook.lookupLevel (orderbook.applyDelta l (p, q)) p = none) := by
  refine ⟨?_, ?_, ?_⟩
  · unfold controller.shouldClosePosition
    split_ifs with h1 h2 h3 <;> simp_all
  · intro hq
    unfold orderbook.applyDelta
    dsimp only
    rw [if_neg hq]
    exact lookupLevel_setLevel_same l p q
  · intro hq
    unfold orderbook.applyDelta
    dsimp only
    rw [if_pos hq]
    exact lookupLevel_eraseLevel l p

/-- Witness for `comparison_discipline_amended`: a liquidity of `1e-12`
(epsilon-zero but nonzero) is stored as a level, not deleted. -/
theorem comparison_discipline_amended_witness :
    orderbook.lookupLevel
        (orderbook.applyDelta [] ((5 : ℚ), 1 / 1000000000000)) 5
      = some (1 / 1000000000000) :=
  (comparison_discipline_amended positionProbe 90 100 0 [] 5
    (1 / 1000000000000)).2.1 (by norm_num)

/-- Claim C1 counterexample: with the entry gate passed, the futures leg
succeeding and the spot leg failing, the position ends not-open and
removed and no close (unwind) command is issued — but the published-event
list is NOT empty: the executor published the successful leg's open event,
refuting "publishes nothing". -/
theorem open_failure_publish_counterexample :
    (controller.ConsiderArbitrageOpportunityLive false "binance" "okx"
        "xrp-usdt" 1 20 false true).map
      (fun r => (r.finalIsOpen, r.removedFromTable, r.publishedEvents.isEmpty,
                 r.commandsIssued.filter (fun c => controller.isCloseCommand c.2)))
      = some (false, true, false, []) := by
  have hgate : common.LessThan 1 (1 / 2) = false := by
    norm_num [common.LessThan, common.Epsilon]
  unfold controller.ConsiderArbitrageOpportunityLive
  rw [hgate]
  simp [controller.executePublished, controller.isCloseCommand]

/-- Claim C1 (amended): when either open leg fails, the controller marks
the position not-open, removes it from the table, and issues no close
(unwind) command; the controller itself publishes nothing, but the
executor publishes one open `TradeExecution` for each leg whose open call
succeeded. -/
theorem open_failure_behaviour (shortExchange longExchange pairName : String)
    (diffPercent amountUSDT : ℚ) (futuresOpenErr spotOpenErr : Bool)
    (hgate : common.LessThan diffPercent (1 / 2) = false)
    (hfail : futuresOpenErr = true ∨ spotOpenErr = true) :
    (controller.ConsiderArbitrageOpportunityLive false shortExchange
        longExchange pairName diffPercent amountUSDT futuresOpenErr
        spotOpenErr).map
      (fun r => (r.finalIsOpen, r.removedFromTable,
                 r.commandsIssued.filter (fun c => controller.isCloseCommand c.2),
                 r.publishedEvents))
      = some (false, true, [],
          (if futuresOpenErr then []
           else [controller.executeEvent shortExchange
                  controller.OrderCommand.putFuturesShort pairName amountUSDT])
          ++ (if spotOpenErr then []
           else [controller.executeEvent longExchange
                  controller.OrderCommand.putSpotLong pairName amountUSDT])) := by
  unfold controller.ConsiderArbitrageOpportunityLive
  rw [hgate]
  rcases hfail with h | h
  · subst h
    cases spotOpenErr <;>
      simp [controller.executePublished, controller.isCloseCommand]
  · subst h
    cases futuresOpenErr <;>
      simp [controller.executePublished, controller.isCloseCommand]

/-- Witness for `open_failure_behaviour`: futures leg fails, spot leg
succeeds — the spot open event is still published. -/
theorem open_failure_behaviour_witness :
    (controller.ConsiderArbitrageOpportunityLive false "binance" "okx"
        "xrp-usdt" 1 20 true false).map
      (fun r => (r.finalIsOpen, r.removedFromTable,
                 r.commandsIssued.filter (fun c => controller.isCloseCommand c.2),
                 r.publishedEvents))
      = some (false, true, [],
          [controller.executeEvent "okx" controller.OrderCommand.putSpotLong
            "xrp-usdt" 20]) := by
  have h := open_failure_behaviour "binance" "okx" "xrp-usdt" 1 20 true false
    (by norm_num [common.LessThan, common.Epsilon]) (Or.inl rfl)
  simpa using h

/-- Claim C2 counterexample: a pair whose books pass the freshness and
side gates, on distinct whitelisted venues, but whose perp best bid (1)
does not exceed the spot best ask (2): the detector emits nothing and the
price-update callback is NOT invoked, refuting the claim that it fires
even when the directional gate fails. -/
theorem price_callback_directional_counterexample :
    detector.isReliable 0 spotBookNoEdge = true
    ∧ detector.isReliable 0 perpBookNoEdge = true
    ∧ orderbook.GetBestAsk spotBookNoEdge = some (2, 100)
    ∧ orderbook.GetBestBid perpBookNoEdge = some (1, 100)
    ∧ ("okx" : String) ≠ "binance"
    ∧ (detector.AnalyzePair 0 ["okx", "binance"] true pairStateNoEdge).priceUpdate
      = none := by
  have hrelS : detector.isReliable 0 spotBookNoEdge = true := by
    norm_num [detector.isReliable, spotBookNoEdge, common.LessThan,
      common.Epsilon]
  have hrelP : detector.isReliable 0 perpBookNoEdge = true := by
    norm_num [detector.isReliable, perpBookNoEdge, common.LessThan,
      common.Epsilon]
  have hask : orderbook.GetBestAsk spotBookNoEdge = some (2, 100) := by decide
  have hbid : orderbook.GetBestBid perpBookNoEdge = some (1, 100) := by decide
  have hprec : common.GetPrecision "xrp-usdt"
      = { QuantityPrecision := 1, PricePrecision := 4 } := by decide
  have hperp : detector.perpStep "xrp-usdt" "okx" 2 100 0
      ("binance", perpBookNoEdge) = none := by
    norm_num [detector.perpStep, hrelP, hbid, detector.minUsableVolume,
      common.LessThan, common.GreaterThan, common.GreaterThanOrEqual,
      common.Epsilon, common.CanAchieveVolume,
      common.CalculateMinAchievableVolume, hprec]
  have hsig : detector.analyzeSignal 0 pairStateNoEdge = none := by
    simp [detector.analyzeSignal, detector.findFirstSome, detector.spotStep,
      pairStateNoEdge, hrelS, hask, hperp]
  exact ⟨hrelS, hrelP, hask, hbid, by decide,
    by simp [detector.AnalyzePair, hsig]⟩

/-- Claim C2 (amended): whenever the price-update callback is invoked, the
detector had emitted an opportunity that passed every gate — in
particular the venues are distinct, both whitelisted, and the perp bid
epsilon-exceeds the spot ask — and the callback arguments are exactly
(symbol, perp venue, perp bid, spot venue, spot ask) of that opportunity. -/
theorem price_callback_characterization (now : ℤ)
    (supportedExchanges : List String) (callbackSet : Bool)
    (pm : detector.PairManagerState) (pn pv sv : String) (pb sa : ℚ)
    (h : (detector.AnalyzePair now supportedExchanges callbackSet pm).priceUpdate
        = some (pn, pv, pb, sv, sa)) :
    pn = pm.pairName ∧ sv ≠ pv
    ∧ supportedExchanges.contains sv = true
    ∧ supportedExchanges.contains pv = true
    ∧ common.GreaterThan pb sa = true
    ∧ callbackSet = true
    ∧ ∃ o : detector.Opportunity, detector.analyzeSignal now pm = some o
        ∧ o.PerpExchange = pv ∧ o.PerpBidPrice = pb
        ∧ o.SpotExchange = sv ∧ o.SpotAskPrice = sa := by
  unfold detector.AnalyzePair at h
  cases hsig : detector.analyzeSignal now pm with
  | none => rw [hsig] at h; simp at h
  | some o =>
    rw [hsig] at h
    dsimp only at h
    split at h
    · rename_i hcond
      simp only [Bool.and_eq_true, decide_eq_true_eq] at hcond
      obtain ⟨⟨⟨hcb, hspot⟩, hperp⟩, hdiff⟩ := hcond
      cases h
      obtain ⟨-, -, hgt, -⟩ := analyzeSignal_some now pm o hsig
      exact ⟨rfl, hdiff, hspot, hperp, hgt, hcb, o, rfl, rfl, rfl, rfl, rfl⟩
    · simp at h

/-- Witness for `price_callback_characterization`: the target-notional
fixture fires the callback with (matic-usdt, binance, 26, okx, 25). -/
theorem price_callback_characterization_witness :
    ("matic-usdt" : String) = pairStateTargetCase.pairName
    ∧ ("okx" : String) ≠ "binance"
    ∧ (["okx", "binance"] : List String).contains "okx" = true
    ∧ (["okx", "binance"] : List String).contains "binance" = true
    ∧ common.GreaterThan 26 25 = true
    ∧ (true : Bool) = true
    ∧ ∃ o : detector.Opportunity,
        detector.analyzeSignal 0 pairStateTargetCase = some o
        ∧ o.PerpExchange = "binance" ∧ o.PerpBidPrice = 26
        ∧ o.SpotExchange = "okx" ∧ o.SpotAskPrice = 25 := by
  have hrelS : detector.isReliable 0 spotBookTargetCase = true := by
    norm_num [detector.isReliable, spotBookTargetCase, common.LessThan,
      common.Epsilon]
  have hrelP : detector.isReliable 0 perpBookTargetCase = true := by
    norm_num [detector.isReliable, perpBookTargetCase, common.LessThan,
      common.Epsilon]
  have hask : orderbook.GetBestAsk spotBookTargetCase = some (25, 100) := by decide
  have hbid : orderbook.GetBestBid perpBookTargetCase = some (26, 100) := by decide
  have hprec : common.GetPrecision "matic-usdt"
      = { QuantityPrecision := 0, PricePrecision := 5 } := by decide
  have hperp : detector.perpStep "matic-usdt" "okx" 25 100 0
      ("binance", perpBookTargetCase) = some opportunityTargetCase := by
    norm_num [detector.perpStep, hrelP, hbid, detector.minUsableVolume,
      common.LessThan, common.GreaterThan, common.GreaterThanOrEqual,
      common.Epsilon, common.CanAchieveVolume,
      common.CalculateMinAchievableVolume, hprec, opportunityTargetCase]
    all_goals exact fun hcontra => absurd hcontra (by decide)
  have hsig : detector.analyzeSignal 0 pairStateTargetCase
      = some opportunityTargetCase := by
    simp [detector.analyzeSignal, detector.findFirstSome, detector.spotStep,
      pairStateTargetCase, hrelS, hask, hperp]
  exact price_callback_characterization 0 ["okx", "binance"] true
    pairStateTargetCase "matic-usdt" "binance" "okx" 26 25
    (by simp [detector.AnalyzePair, hsig, opportunityTargetCase,
      show pairStateTargetCase.pairName = "matic-usdt" from rfl])

/-- Claim C3 counterexample: on the `matic-usdt` fixture (quantity
precision 0, spot ask 25, perp bid 26, both sides offering 100 USDT), the
detector emits an Opportunity with usable volume 20 — epsilon-strictly
below the spot side's minimum achievable volume of 25 — because the
achievability check is only run when the usable volume is epsilon-below
the 20 USD target. -/
theorem usable_volume_below_min_achievable_counterexample :
    (detector.analyzeSignal 0 pairStateTargetCase).map
      (fun o => (o.UsableVolumeUSD,
        common.LessThan o.UsableVolumeUSD
          (common.CalculateMinAchievableVolume o.SpotAskPrice o.Pair)))
      = some (20, true) := by
  have hrelS : detector.isReliable 0 spotBookTargetCase = true := by
    norm_num [detector.isReliable, spotBookTargetCase, common.LessThan,
      common.Epsilon]
  have hrelP : detector.isReliable 0 perpBookTargetCase = true := by
    norm_num [detector.isReliable, perpBookTargetCase, common.LessThan,
      common.Epsilon]
  have hask : orderbook.GetBestAsk spotBookTargetCase = some (25, 100) := by decide
  have hbid : orderbook.GetBestBid perpBookTargetCase = some (26, 100) := by decide
  have hprec : common.GetPrecision "matic-usdt"
      = { QuantityPrecision := 0, PricePrecision := 5 } := by decide
  have hperp : detector.perpStep "matic-usdt" "okx" 25 100 0
      ("binance", perpBookTargetCase) = some opportunityTargetCase := by
    norm_num [detector.perpStep, hrelP, hbid, detector.minUsableVolume,
      common.LessThan, common.GreaterThan, common.GreaterThanOrEqual,
      common.Epsilon, common.CanAchieveVolume,
      common.CalculateMinAchievableVolume, hprec, opportunityTargetCase]
    all_goals exact fun hcontra => absurd hcontra (by decide)
  have hsig : detector.analyzeSignal 0 pairStateTargetCase
      = some opportunityTargetCase := by
    simp [detector.analyzeSignal, detector.findFirstSome, detector.spotStep,
      pairStateTargetCase, hrelS, hask, hperp]
  rw [hsig]
  simp only [Option.map]
  norm_num [opportunityTargetCase, common.LessThan, common.Epsilon,
    common.CalculateMinAchievableVolume, hprec]

/-- Claim C3 (amended): every emitted Opportunity's usable volume is the
epsilon-min chain of (spot liquidity, perp liquidity, target 20 USD); the
achievability-of-usable check holds only under the guard
`LessThan(usable, target)`; and what is checked unconditionally is that
each side's top-of-book liquidity — not the usable volume — reaches that
side's minimum achievable volume. -/
theorem usable_volume_gates (now : ℤ) (pm : detector.PairManagerState)
    (o : detector.Opportunity) (h : detector.analyzeSignal now pm = some o) :
    o.UsableVolumeUSD = detector.minUsableVolume o.SpotAskVolume o.PerpBidVolume 20
    ∧ (common.LessThan o.UsableVolumeUSD 20 = true →
        common.CanAchieveVolume o.UsableVolumeUSD o.SpotAskPrice o.Pair = true
        ∧ common.CanAchieveVolume o.UsableVolumeUSD o.PerpBidPrice o.Pair = true)
    ∧ common.LessThan o.SpotAskVolume
        (common.CalculateMinAchievableVolume o.SpotAskPrice o.Pair) = false
    ∧ common.LessThan o.PerpBidVolume
        (common.CalculateMinAchievableVolume o.PerpBidPrice o.Pair) = false := by
  obtain ⟨hpair, -, -, -, husable, hach, hs, hp⟩ :=
    analyzeSignal_some now pm o h
  rw [hpair]
  exact ⟨husable, hach, hs, hp⟩

/-- Witness for `usable_volume_gates` at the target-notional fixture. -/
theorem usable_volume_gates_witness :
    opportunityTargetCase.UsableVolumeUSD
      = detector.minUsableVolume opportunityTargetCase.SpotAskVolume
          opportunityTargetCase.PerpBidVolume 20
    ∧ (common.LessThan opportunityTargetCase.UsableVolumeUSD 20 = true →
        common.CanAchieveVolume opportunityTargetCase.UsableVolumeUSD
          opportunityTargetCase.SpotAskPrice opportunityTargetCase.Pair = true
        ∧ common.CanAchieveVolume opportunityTargetCase.UsableVolumeUSD
          opportunityTargetCase.PerpBidPrice opportunityTargetCase.Pair = true)
    ∧ common.LessThan opportunityTargetCase.SpotAskVolume
        (common.CalculateMinAchievableVolume opportunityTargetCase.SpotAskPrice
          opportunityTargetCase.Pair) = false
    ∧ common.LessThan opportunityTargetCase.PerpBidVolume
        (common.CalculateMinAchievableVolume opportunityTargetCase.PerpBidPrice
          opportunityTargetCase.Pair) = false := by
  have hrelS : detector.isReliable 0 spotBookTargetCase = true := by
    norm_num [detector.isReliable, spotBookTargetCase, common.LessThan,
      common.Epsilon]
  have hrelP : detector.isReliable 0 perpBookTargetCase = true := by
    norm_num [detector.isReliable, perpBookTargetCase, common.LessThan,
      common.Epsilon]
  have hask : orderbook.GetBestAsk spotBookTargetCase = some (25, 100) := by decide
  have hbid : orderbook.GetBestBid perpBookTargetCase = some (26, 100) := by decide
  have hprec : common.GetPrecision "matic-usdt"
      = { QuantityPrecision := 0, PricePrecision := 5 } := by decide
  have hperp : detector.perpStep "matic-usdt" "okx" 25 100 0
      ("binance", perpBookTargetCase) = some opportunityTargetCase := by
    norm_num [detector.perpStep, hrelP, hbid, detector.minUsableVolume,
      common.LessThan, common.GreaterThan, common.GreaterThanOrEqual,
      common.Epsilon, common.CanAchieveVolume,
      common.CalculateMinAchievableVolume, hprec, opportunityTargetCase]
    all_goals exact fun hcontra => absurd hcontra (by decide)
  have hsig : detector.analyzeSignal 0 pairStateTargetCase
      = some opportunityTargetCase := by
    simp [detector.analyzeSignal, detector.findFirstSome, detector.spotStep,
      pairStateTargetCase, hrelS, hask, hperp]
  exact usable_volume_gates 0 pairStateTargetCase opportunityTargetCase hsig

/-- Claim C9: the balance store returns the most recently stored value for
a triple and `0.00` for a never-written triple without failing, so a
close-leg profit computed against a never-snapshotted pre-trade balance
equals the entire post-trade balance. -/
theorem balance_store_semantics (ops : List common.BalanceOp)
    (e m a : String) (newBalance : ℚ) :
    common.GetBalance (common.applyBalanceOps [] ops) e m a
      = (common.lastWritten ops e m a).getD 0
    ∧ (common.lastWritten ops e "spot" "USDT" = none →
        adapters.closeLegProfit (common.applyBalanceOps [] ops) e newBalance
          = newBalance) := by
  constructor
  · have h := getBalance_applyBalanceOps ops [] e m a
    rw [show common.GetBalance [] e m a = 0 from rfl] at h
    exact h
  · intro hnone
    unfold adapters.closeLegProfit
    have h := getBalance_applyBalanceOps ops [] e "spot" "USDT"
    rw [hnone] at h
    rw [show common.GetBalance [] e "spot" "USDT" = 0 from rfl] at h
    simp only [Option.getD] at h
    rw [h]
    ring

/-- Witness for `balance_store_semantics`: the last write wins, and a
never-written exchange yields the whole post-trade balance as profit. -/
theorem balance_store_semantics_witness :
    common.GetBalance (common.applyBalanceOps []
        [("okx", "spot", "USDT", 5), ("okx", "spot", "USDT", 9)])
      "okx" "spot" "USDT" = 9
    ∧ adapters.closeLegProfit (common.applyBalanceOps []
        [("okx", "spot", "USDT", 5), ("okx", "spot", "USDT", 9)])
      "binance" 42 = 42 :=
  ⟨(balance_store_semantics
      [("okx", "spot", "USDT", 5), ("okx", "spot", "USDT", 9)]
      "okx" "spot" "USDT" 42).1.trans (by decide),
   (balance_store_semantics
      [("okx", "spot", "USDT", 5), ("okx", "spot", "USDT", 9)]
      "binance" "spot" "USDT" 42).2 (by decide)⟩

end ArbSpec
